import Mathlib

/-!
Verification development for the forever-wall write/read path
(`src/unnamed/part_002`): proof-of-work verification, per-IP rate
limiting, and the POST /wall and GET /wall handlers.  JavaScript
strings are embedded as Lean strings, timestamps (`Date.now()`
milliseconds) as `Int`, and the external SHA-256 primitive as an
abstract hash parameter `String → String` (its hex digest output).
-/

namespace ForeverWall

/-- Model of the JS `String.prototype.startsWith` builtin on embedded
strings: prefix test on the underlying character lists. -/
def jsStartsWith (s pre : String) : Bool :=
  pre.data.isPrefixOf s.data

/-- Model of the JS `'0'.repeat(d)` expression: a string of `d` zero
characters. -/
def zeroRepeat (d : Nat) : String :=
  String.mk (List.replicate d '0')

/-- `verifyProofOfWork` from src/unnamed/part_002 lines 84-88: hash the
separator-free concatenation `nonce + solution` with the (abstract)
SHA-256 hex-digest primitive `hash`, and test whether the digest starts
with `difficulty` zero characters. -/
def verifyProofOfWork (hash : String → String) (nonce solution : String)
    (difficulty : Nat) : Bool :=
  jsStartsWith (hash (nonce ++ solution)) (zeroRepeat difficulty)

/-- Number of leading `'0'` characters of a string (the quantity the
spec phrases as "at least `d` leading `'0'` characters"). -/
def leadingZeroCount (s : String) : Nat :=
  (s.data.takeWhile (fun c => c = '0')).length

/-- JS whitespace characters recognised by `String.prototype.trim`
(ASCII whitespace, NBSP and the BOM; the exotic Unicode space
separators are outside the embedding). -/
def isJsWhitespace (c : Char) : Bool :=
  c = ' ' || c = '\t' || c = '\n' || c = '\r' ||
  c.toNat = 11 || c.toNat = 12 || c.toNat = 0xA0 || c.toNat = 0xFEFF

/-- Model of the JS `String.prototype.trim` builtin: drop whitespace
from both ends. -/
def jsTrim (s : String) : String :=
  String.mk (((s.data.dropWhile isJsWhitespace).reverse.dropWhile
    isJsWhitespace).reverse)

/-- UTF-16 length of an embedded string, the quantity the JS `.length`
property reports: astral code points weigh 2 (a surrogate pair), all
others 1. -/
def utf16Length (s : String) : Nat :=
  (s.data.map (fun c => if 0x10000 ≤ c.toNat then 2 else 1)).sum

/-- Number of Unicode code points of an embedded string (Lean chars are
code points). -/
def codePointLength (s : String) : Nat :=
  s.data.length

/-- Ceiling division on integers, the value of the JS expression
`Math.ceil(a / b)` for integer `a` and positive integer `b` (JS divides
in floating point and then takes the ceiling). -/
def jsCeilDiv (a b : Int) : Int :=
  -((-a).fdiv b)

/-- One per-IP rate-limit record, src/unnamed/part_002 line 11:
`{ count, resetAt, lastPost }` (timestamps in milliseconds). -/
structure RateRecord where
  count : Int
  resetAt : Int
  lastPost : Int
  deriving Repr, DecidableEq

/-- `MAX_POSTS_PER_HOUR` from src/unnamed/part_002 line 24. -/
def MAX_POSTS_PER_HOUR : Int := 10

/-- `COOLDOWN_MS` from src/unnamed/part_002 line 25. -/
def COOLDOWN_MS : Int := 60000

/-- Outcome of `checkRateLimit`: the code's
`{ allowed, error?, retryAfter? }` object, with the two distinct denial
error strings abstracted into the two denial constructors. -/
inductive RateCheck where
  | allowed
  | deniedCooldown (retryAfter : Int)
  | deniedHourly (retryAfter : Int)
  deriving Repr, DecidableEq

/-- `checkRateLimit` from src/unnamed/part_002 lines 41-82, with the
global map access factored out: the caller passes the record currently
stored for the IP (`none` when absent) and receives, besides the
result, the record the map holds for that IP afterwards (the JS code
mutates the record in place / inserts a fresh one). -/
def checkRateLimit (now : Int) (limit : Option RateRecord) :
    RateCheck × Option RateRecord :=
  match limit with
  | none =>
    (.allowed, some { count := 1, resetAt := now + 3600000, lastPost := now })
  | some l =>
    let timeSinceLastPost := now - l.lastPost
    if timeSinceLastPost < COOLDOWN_MS then
      (.deniedCooldown (jsCeilDiv (COOLDOWN_MS - timeSinceLastPost) 1000),
        some l)
    else
      let l := if l.resetAt < now
        then { l with count := 0, resetAt := now + 3600000 } else l
      if MAX_POSTS_PER_HOUR ≤ l.count then
        (.deniedHourly (jsCeilDiv (l.resetAt - now) 60000 * 60), some l)
      else
        (.allowed, some { l with count := l.count + 1, lastPost := now })

/-- The process-wide `rateLimits` map, src/unnamed/part_002 line 11,
embedded as a function from IP strings to optional records. -/
def RateLimits : Type := String → Option RateRecord

/-- The periodic cleanup sweep over `rateLimits`,
src/unnamed/part_002 lines 14-21: delete a record once its window has
expired and the last post is over an hour old. -/
def sweepRateLimits (now : Int) (m : RateLimits) : RateLimits :=
  fun ip =>
    match m ip with
    | none => none
    | some l =>
      if l.resetAt < now && l.lastPost < now - 3600000 then none else some l

/-- The `COLORS` palette, src/unnamed/part_002 lines 28-31. -/
def COLORS : List String :=
  ["#ff6b6b", "#feca57", "#48dbfb", "#ff9ff3", "#54a0ff",
   "#5f27cd", "#00d2d3", "#1dd1a1", "#ff9f43", "#ee5a24"]

/-- A live challenge entry, src/unnamed/part_002 line 270. -/
structure Challenge where
  nonce : String
  difficulty : Nat
  expires : Int
  deriving Repr, DecidableEq

/-- The process-wide `challenges` map of the challenge route,
src/unnamed/part_002 lines 268-270, embedded as a function from nonce
strings to optional entries. -/
def ChallengeStore : Type := String → Option Challenge

/-- A persisted wall message, src/unnamed/part_002 lines 212-219
(`newMessage`). Coordinates are rationals (JS doubles produced by
`200 + Math.random() * 2600`). -/
structure Message where
  id : String
  text : String
  x : Rat
  y : Rat
  color : String
  created_at : String
  deriving Repr, DecidableEq

/-- JSON body of a POST /wall request after `request.json()`. A field
is `none` when it is absent or not a string (the code treats both the
same way through truthiness / `typeof` checks). -/
structure PostBody where
  message : Option String
  nonce : Option String
  solution : Option String
  deriving Repr, DecidableEq

/-- JS truthiness of an optional string field: absent and `""` are
falsy. -/
def truthy (o : Option String) : Bool :=
  match o with
  | none => false
  | some s => s ≠ ""

/-- The nondeterministic inputs of one POST /wall invocation: the
current time, the SHA-256 primitive, the drawn random values
(UUID, x/y positions, palette index), the created-at timestamp string,
and the behaviour of the external store for this request. -/
structure PostEnv where
  now : Int
  hash : String → String
  uuid : String
  randX : Rat
  randY : Rat
  randC : Rat
  createdAt : String
  dbConfigured : Bool
  insertFails : Bool

/-- Response of one POST /wall invocation, abstracting each `return
NextResponse.json(...)` site of src/unnamed/part_002 lines 150-264 into
one constructor (the error strings distinguish the sites). -/
inductive PostResult where
  | rateLimited (retryAfter : Int)
  | missingMessage
  | missingPow
  | messageTooLong
  | invalidPow
  | dbNotConfigured
  | saveFailed
  | posted (data : Message) (remainingPosts : Int)
  deriving Repr, DecidableEq

/-- Everything one POST /wall invocation produces: the response, the
rate-limit map afterwards, and the row handed to the store's `insert`
(if the request reached the insert call). -/
structure PostOutcome where
  result : PostResult
  rateLimits : RateLimits
  insertAttempt : Option Message

/-- The `remainingPosts` expression of src/unnamed/part_002 line 239:
`limit ? MAX_POSTS_PER_HOUR - limit.count : MAX_POSTS_PER_HOUR - 1`. -/
def remainingPostsOf (limit : Option RateRecord) : Int :=
  match limit with
  | some l => MAX_POSTS_PER_HOUR - l.count
  | none => MAX_POSTS_PER_HOUR - 1

set_option linter.unusedVariables false in
/-- The POST /wall handler, src/unnamed/part_002 lines 150-264, from
the point the client IP has been derived. Gates in source order: rate
limit (429), message presence (400), nonce/solution presence (400),
raw UTF-16 length over 280 (400), proof of work at difficulty 5 (400),
store configured (500), insert (500 on failure), then the 200 response.
The `challenges` store is a parameter because it is process state
alive while the handler runs. -/
def postWall (challenges : ChallengeStore) (env : PostEnv) (ip : String)
    (body : PostBody) (rl : RateLimits) : PostOutcome :=
  let check := checkRateLimit env.now (rl ip)
  let rl' : RateLimits := fun k => if k = ip then check.2 else rl k
  match check.1 with
  | .deniedCooldown w => ⟨.rateLimited w, rl', none⟩
  | .deniedHourly w => ⟨.rateLimited w, rl', none⟩
  | .allowed =>
    if !truthy body.message then ⟨.missingMessage, rl', none⟩
    else
      let msg := body.message.getD ""
      if !truthy body.nonce || !truthy body.solution then
        ⟨.missingPow, rl', none⟩
      else if 280 < utf16Length msg then ⟨.messageTooLong, rl', none⟩
      else if !verifyProofOfWork env.hash (body.nonce.getD "")
          (body.solution.getD "") 5 then
        ⟨.invalidPow, rl', none⟩
      else
        let newMessage : Message :=
          { id := env.uuid
            text := jsTrim msg
            x := 200 + env.randX * 2600
            y := 200 + env.randY * 2600
            color := COLORS.getD (Int.toNat (Rat.floor (env.randC * 10))) ""
            created_at := env.createdAt }
        if !env.dbConfigured then ⟨.dbNotConfigured, rl', none⟩
        else if env.insertFails then ⟨.saveFailed, rl', some newMessage⟩
        else
          ⟨.posted newMessage (remainingPostsOf (rl' ip)), rl',
            some newMessage⟩

/-- Decimal fragment of the JS `parseInt` builtin: skip leading
whitespace, read an optional sign, then the maximal run of leading
decimal digits; `none` models `NaN` (no digit consumed). The `0x`
hex-prefix special case of the builtin is outside the embedding. -/
def parseIntJs (s : String) : Option Int :=
  let l := s.data.dropWhile isJsWhitespace
  let signAndRest : Int × List Char :=
    match l with
    | '-' :: rest => (-1, rest)
    | '+' :: rest => (1, rest)
    | _ => (1, l)
  let ds := signAndRest.2.takeWhile (fun c => c.isDigit)
  if ds.isEmpty then none
  else some (signAndRest.1 *
    (ds.foldl (fun a c => a * 10 + (c.toNat - 48)) 0 : Nat))

/-- The effective `limit` of the GET /wall handler,
src/unnamed/part_002 line 93:
`Math.min(parseInt(searchParams.get('limit') || '50'), 100)`.
`param` is the raw query parameter (`none` when absent); `none` in the
result models `NaN`. -/
def effectiveLimit (param : Option String) : Option Int :=
  let raw := match param with
    | none => "50"
    | some v => if v = "" then "50" else v
  (parseIntJs raw).map (fun n => min n 100)

/-- A concrete POST environment for concrete evaluations: time 0, a
hash primitive whose digest is 64 zero characters (so proof of work
always passes), fixed randomness, configured store, successful
insert. -/
def envAllZero : PostEnv :=
  { now := 0
    hash := fun _ => zeroRepeat 64
    uuid := "u"
    randX := 0
    randY := 0
    randC := 0
    createdAt := "t"
    dbConfigured := true
    insertFails := false }

/-- Does a `PostResult` come from one of the three admission gates
(rate limit 429, validation 400, proof of work 400), as opposed to the
storage path or a success? -/
def isGateRejection : PostResult → Bool
  | .rateLimited _ => true
  | .missingMessage => true
  | .missingPow => true
  | .messageTooLong => true
  | .invalidPow => true
  | .dbNotConfigured => false
  | .saveFailed => false
  | .posted _ _ => false

-- Helper lemmas about the string models.

theorem replicate_isPrefixOf_iff (d : Nat) (l : List Char) :
    (List.replicate d '0').isPrefixOf l = true ↔
      d ≤ (l.takeWhile (fun c => c = '0')).length := by
  induction d generalizing l with
  | zero => simp [List.isPrefixOf]
  | succ n ih =>
    cases l with
    | nil => simp [List.isPrefixOf, List.replicate]
    | cons c cs =>
      simp only [List.replicate, List.isPrefixOf, List.takeWhile]
      by_cases hc : c = '0'
      · simp [hc, ih, Nat.succ_le_succ_iff]
      · simp [hc]
        intro h
        exact absurd h.symm hc

theorem jsCeilDiv_spec (a b : Int) (hb : 0 < b) :
    a ≤ b * jsCeilDiv a b ∧ b * (jsCeilDiv a b - 1) < a := by
  have hfd : (-a).fdiv b = (-a) / b := Int.fdiv_eq_ediv _ hb.le
  have h1 : b * ((-a) / b) + (-a) % b = -a := Int.ediv_add_emod _ _
  have h2 : 0 ≤ (-a) % b := Int.emod_nonneg _ (ne_of_gt hb)
  have h3 : (-a) % b < b := Int.emod_lt_of_pos _ hb
  unfold jsCeilDiv
  rw [hfd]
  constructor
  · have he : b * -((-a) / b) = -(b * ((-a) / b)) := by ring
    rw [he]; linarith
  · have he : b * (-((-a) / b) - 1) = -(b * ((-a) / b)) - b := by ring
    rw [he]; linarith

/-- C1: for every nonce `n`, solution `s` and difficulty `d`,
`verifyProofOfWork` returns true iff the hex digest of the
separator-free concatenation `n ++ s` has at least `d` leading `'0'`
characters. -/
theorem c1_verify_iff_leading_zeros (hash : String → String)
    (nonce solution : String) (d : Nat) :
    verifyProofOfWork hash nonce solution d = true ↔
      d ≤ leadingZeroCount (hash (nonce ++ solution)) := by
  unfold verifyProofOfWork jsStartsWith zeroRepeat leadingZeroCount
  exact replicate_isPrefixOf_iff d (hash (nonce ++ solution)).data

/-- C9: proof-of-work verification is monotone in the difficulty: a
solution valid at difficulty `d` is valid at every difficulty
`d' ≤ d`. -/
theorem c9_verify_monotone (hash : String → String)
    (nonce solution : String) (d d' : Nat) (hle : d' ≤ d)
    (hv : verifyProofOfWork hash nonce solution d = true) :
    verifyProofOfWork hash nonce solution d' = true := by
  unfold verifyProofOfWork jsStartsWith zeroRepeat at *
  rw [replicate_isPrefixOf_iff] at *
  exact le_trans hle hv

/-- Witness for C9 at a concrete digest, nonce, solution and the
difficulty pair `(3, 1)`. -/
theorem c9_verify_monotone_witness :
    (1 : Nat) ≤ 3 ∧
      verifyProofOfWork (fun _ => zeroRepeat 64) "a" "b" 3 = true ∧
      verifyProofOfWork (fun _ => zeroRepeat 64) "a" "b" 1 = true :=
  ⟨by decide, by decide,
    c9_verify_monotone (fun _ => zeroRepeat 64) "a" "b" 3 1 (by decide)
      (by decide)⟩

/-- C3: a `checkRateLimit` call on an existing record within the 60 s
cooldown is denied with a strictly positive `retryAfter` that is the
ceiling of the remaining cooldown in seconds (characterised by the two
inequalities `remaining ≤ 1000 w` and `1000 (w-1) < remaining`), the
stored record is returned unmutated, and the outcome is the same for
every value of the record's counter — the cooldown gate precedes the
hourly-cap gate unconditionally. -/
theorem c3_cooldown_denied_unmutated (now : Int) (r : RateRecord)
    (h : now - r.lastPost < COOLDOWN_MS) :
    ∃ w, checkRateLimit now (some r) = (.deniedCooldown w, some r) ∧
      0 < w ∧
      COOLDOWN_MS - (now - r.lastPost) ≤ 1000 * w ∧
      1000 * (w - 1) < COOLDOWN_MS - (now - r.lastPost) ∧
      ∀ c, checkRateLimit now (some { r with count := c }) =
        (RateCheck.deniedCooldown w, some { r with count := c }) := by
  have hpos : 0 < COOLDOWN_MS - (now - r.lastPost) := by omega
  obtain ⟨hA, hB⟩ :=
    jsCeilDiv_spec (COOLDOWN_MS - (now - r.lastPost)) 1000 (by norm_num)
  refine ⟨jsCeilDiv (COOLDOWN_MS - (now - r.lastPost)) 1000,
    ?_, ?_, hA, hB, ?_⟩
  · simp [checkRateLimit, h]
  · nlinarith
  · intro c
    simp [checkRateLimit, h]

/-- Witness for C3: a record last posted at t=500 checked at t=1000. -/
theorem c3_cooldown_denied_unmutated_witness :
    ((1000 : Int) - (500 : Int) < COOLDOWN_MS) ∧
    (∃ w, checkRateLimit 1000 (some ⟨5, 99999, 500⟩) =
        (.deniedCooldown w, some ⟨5, 99999, 500⟩) ∧
      0 < w ∧
      COOLDOWN_MS - (1000 - 500) ≤ 1000 * w ∧
      1000 * (w - 1) < COOLDOWN_MS - (1000 - 500) ∧
      ∀ c, checkRateLimit 1000 (some ⟨c, 99999, 500⟩) =
        (RateCheck.deniedCooldown w, some ⟨c, 99999, 500⟩)) :=
  ⟨by decide, c3_cooldown_denied_unmutated 1000 ⟨5, 99999, 500⟩ (by decide)⟩

theorem postWall_rateLimits_eq (c : ChallengeStore) (e : PostEnv)
    (ip : String) (b : PostBody) (rl : RateLimits) :
    (postWall c e ip b rl).rateLimits =
      fun k => if k = ip then (checkRateLimit e.now (rl ip)).2 else rl k := by
  unfold postWall
  rcases h : checkRateLimit e.now (rl ip) with ⟨res, rec⟩
  simp only [h]
  cases res with
  | deniedCooldown w => rfl
  | deniedHourly w => rfl
  | allowed => split_ifs <;> rfl

theorem checkRateLimit_allowed_record (now : Int) (o : Option RateRecord)
    (h0 : ∀ l, o = some l → 0 ≤ l.count)
    (hA : (checkRateLimit now o).1 = .allowed) :
    ∃ l', (checkRateLimit now o).2 = some l' ∧
      1 ≤ l'.count ∧ l'.count ≤ MAX_POSTS_PER_HOUR ∧ l'.lastPost = now := by
  cases o with
  | none =>
    refine ⟨_, rfl, ?_, ?_, rfl⟩ <;> simp [MAX_POSTS_PER_HOUR]
  | some l =>
    have hc := h0 l rfl
    simp only [checkRateLimit] at hA ⊢
    split_ifs at hA ⊢ with h1 h2 h3 h3
    all_goals simp_all [MAX_POSTS_PER_HOUR]
    all_goals omega

theorem length_le_weights_sum (l : List Char) :
    l.length ≤ (l.map (fun c => if 0x10000 ≤ c.toNat then 2 else 1)).sum := by
  induction l with
  | nil => simp
  | cons c cs ih =>
    simp only [List.length_cons, List.map_cons, List.sum_cons]
    split_ifs <;> omega

theorem codePointLength_le_utf16Length (s : String) :
    codePointLength s ≤ utf16Length s :=
  length_le_weights_sum s.data

theorem jsTrim_data_sublist (s : String) :
    (jsTrim s).data.Sublist s.data := by
  show ((((s.data.dropWhile isJsWhitespace).reverse.dropWhile
    isJsWhitespace).reverse)).Sublist s.data
  have h1 : (s.data.dropWhile isJsWhitespace).Sublist s.data :=
    List.dropWhile_sublist _
  have h2 : ((s.data.dropWhile isJsWhitespace).reverse.dropWhile
      isJsWhitespace).Sublist (s.data.dropWhile isJsWhitespace).reverse :=
    List.dropWhile_sublist _
  have h3 := h2.reverse
  rw [List.reverse_reverse] at h3
  exact h3.trans h1

theorem utf16Length_jsTrim_le (s : String) :
    utf16Length (jsTrim s) ≤ utf16Length s :=
  List.Sublist.sum_le_sum ((jsTrim_data_sublist s).map _)
    (by intro a ha; positivity)

/-- C5: the POST /wall outcome does not depend on the live-challenge
store — any two challenge-store states yield the identical outcome for
the same request and randomness — and any nonce/solution pair whose
digest has at least 5 leading zeros passes verification at the
hardcoded difficulty 5. -/
theorem c5_outcome_independent_of_challenges (c1 c2 : ChallengeStore)
    (e : PostEnv) (ip : String) (b : PostBody) (rl : RateLimits) :
    postWall c1 e ip b rl = postWall c2 e ip b rl ∧
    (∀ nonce solution : String,
      5 ≤ leadingZeroCount (e.hash (nonce ++ solution)) →
      verifyProofOfWork e.hash nonce solution 5 = true) := by
  refine ⟨rfl, fun nonce solution h => ?_⟩
  unfold leadingZeroCount at h
  unfold verifyProofOfWork jsStartsWith zeroRepeat
  exact (replicate_isPrefixOf_iff 5 _).mpr h

/-- Witness for C5: an empty challenge store versus one holding a live
challenge for the submitted nonce, and a concrete digest with 64
leading zeros. -/
theorem c5_outcome_independent_of_challenges_witness :
    postWall (fun _ => none) envAllZero "ip"
        ⟨some "hi", some "n", some "s"⟩ (fun _ => none) =
      postWall (fun _ => some ⟨"n", 5, 300000⟩) envAllZero "ip"
        ⟨some "hi", some "n", some "s"⟩ (fun _ => none) ∧
    5 ≤ leadingZeroCount (envAllZero.hash ("n" ++ "s")) ∧
    verifyProofOfWork envAllZero.hash "n" "s" 5 = true :=
  ⟨(c5_outcome_independent_of_challenges (fun _ => none)
      (fun _ => some ⟨"n", 5, 300000⟩) envAllZero "ip"
      ⟨some "hi", some "n", some "s"⟩ (fun _ => none)).1,
    by decide,
    (c5_outcome_independent_of_challenges (fun _ => none)
      (fun _ => some ⟨"n", 5, 300000⟩) envAllZero "ip"
      ⟨some "hi", some "n", some "s"⟩ (fun _ => none)).2 "n" "s"
      (by decide)⟩

/-- C6: a POST /wall request rejected at the rate-limit, validation or
proof-of-work gate never reaches the store: no insert is attempted. -/
theorem c6_gate_rejection_no_insert (c : ChallengeStore) (e : PostEnv)
    (ip : String) (b : PostBody) (rl : RateLimits)
    (h : isGateRejection (postWall c e ip b rl).result = true) :
    (postWall c e ip b rl).insertAttempt = none := by
  unfold postWall at h ⊢
  rcases hc : checkRateLimit e.now (rl ip) with ⟨res, rec⟩
  simp only [hc] at h ⊢
  cases res with
  | deniedCooldown w => rfl
  | deniedHourly w => rfl
  | allowed =>
    split_ifs at h ⊢ <;> first | rfl | simp [isGateRejection] at h

/-- Witness for C6: a request denied by the cooldown gate attempts no
insert. -/
theorem c6_gate_rejection_no_insert_witness :
    isGateRejection (postWall (fun _ => none)
        { envAllZero with now := 1000 } "ip"
        ⟨some "hi", some "n", some "s"⟩
        (fun _ => some ⟨1, 3600000, 500⟩)).result = true ∧
    (postWall (fun _ => none) { envAllZero with now := 1000 } "ip"
        ⟨some "hi", some "n", some "s"⟩
        (fun _ => some ⟨1, 3600000, 500⟩)).insertAttempt = none :=
  ⟨by decide,
    c6_gate_rejection_no_insert (fun _ => none)
      { envAllZero with now := 1000 } "ip"
      ⟨some "hi", some "n", some "s"⟩
      (fun _ => some ⟨1, 3600000, 500⟩) (by decide)⟩

/-- C7: the `windowCount ≤ 10` invariant is preserved by every
`checkRateLimit` call (the counter is incremented only after the cap
check passes) and by every cleanup sweep. -/
theorem c7_window_count_capped (now : Int) (o : Option RateRecord)
    (m : RateLimits) (ip : String)
    (ho : ∀ l, o = some l → l.count ≤ MAX_POSTS_PER_HOUR)
    (hm : ∀ l, m ip = some l → l.count ≤ MAX_POSTS_PER_HOUR) :
    (∀ l', (checkRateLimit now o).2 = some l' →
      l'.count ≤ MAX_POSTS_PER_HOUR) ∧
    (∀ l', sweepRateLimits now m ip = some l' →
      l'.count ≤ MAX_POSTS_PER_HOUR) := by
  constructor
  · intro l' hl'
    cases o with
    | none =>
      simp only [checkRateLimit, Option.some.injEq] at hl'
      simp [← hl', MAX_POSTS_PER_HOUR]
    | some l =>
      have hc := ho l rfl
      simp only [checkRateLimit] at hl'
      simp only [MAX_POSTS_PER_HOUR] at hc ⊢
      split_ifs at hl' with h1 h2 h3 h3 <;>
        simp only [Option.some.injEq] at hl' <;> rw [← hl']
      · exact hc
      · norm_num
      · norm_num
      · exact hc
      · simp only [MAX_POSTS_PER_HOUR] at h3
        show l.count + 1 ≤ 10
        omega
  · intro l' hl'
    unfold sweepRateLimits at hl'
    split at hl'
    · exact absurd hl' (by simp)
    · rename_i l heq
      split_ifs at hl'
      simp only [Option.some.injEq] at hl'
      exact hl' ▸ hm l heq

/-- Witness for C7: a fresh key at t=0 (no record, the invariant holds
vacuously), checked and swept. -/
theorem c7_window_count_capped_witness :
    (∀ l, (none : Option RateRecord) = some l →
      l.count ≤ MAX_POSTS_PER_HOUR) ∧
    ((∀ l', (checkRateLimit 0 none).2 = some l' →
      l'.count ≤ MAX_POSTS_PER_HOUR) ∧
    (∀ l', sweepRateLimits 0 (fun _ => none) "ip" = some l' →
      l'.count ≤ MAX_POSTS_PER_HOUR)) :=
  ⟨(fun l hl => by cases hl),
    c7_window_count_capped 0 none (fun _ => none) "ip"
      (fun l hl => by cases hl) (fun l hl => by cases hl)⟩

/-- C10: every successful POST /wall response carries a
`remaining_posts_this_hour` between 0 and 9 inclusive (after an
allowed check the stored counter is between 1 and 10), and the
fallback used when no record is found is 9. -/
theorem c10_remaining_posts_in_range (c : ChallengeStore) (e : PostEnv)
    (ip : String) (b : PostBody) (rl : RateLimits)
    (h0 : ∀ l, rl ip = some l → 0 ≤ l.count) :
    (∀ m rem, (postWall c e ip b rl).result = .posted m rem →
      0 ≤ rem ∧ rem ≤ 9) ∧
    remainingPostsOf none = 9 := by
  constructor
  · intro m rem h
    unfold postWall at h
    rcases hc : checkRateLimit e.now (rl ip) with ⟨res, rec⟩
    simp only [hc] at h
    cases res with
    | deniedCooldown w => simp at h
    | deniedHourly w => simp at h
    | allowed =>
      split_ifs at h
      injection h with hmsg hrem
      obtain ⟨l', hl', hge, hle, _⟩ :=
        checkRateLimit_allowed_record e.now (rl ip) h0 (by rw [hc])
      rw [hc] at hl'
      rw [← hrem, show rec = some l' from hl']
      simp only [remainingPostsOf, MAX_POSTS_PER_HOUR] at *
      omega
  · simp [remainingPostsOf, MAX_POSTS_PER_HOUR]

/-- Witness for C10: a first post from a fresh IP is accepted with 9
remaining posts. -/
theorem c10_remaining_posts_in_range_witness :
    (∀ l, (fun _ => none : RateLimits) "ip" = some l → 0 ≤ l.count) ∧
    ((∀ m rem, (postWall (fun _ => none) envAllZero "ip"
        ⟨some "hi", some "n", some "s"⟩ (fun _ => none)).result =
          .posted m rem → 0 ≤ rem ∧ rem ≤ 9) ∧
      remainingPostsOf none = 9) :=
  ⟨(fun l hl => by cases hl),
    c10_remaining_posts_in_range (fun _ => none) envAllZero "ip"
      ⟨some "hi", some "n", some "s"⟩ (fun _ => none)
      (fun l hl => by cases hl)⟩

/-- Counterexample to C4: a request from an IP with an existing record
(count 3, window open, last post 200 s ago) that carries no message at
all is rejected with the validation error — after the rate-limit gate —
yet the stored record changes from `⟨3, 10000000, 0⟩` to
`⟨4, 10000000, 200000⟩`: `windowCount` was incremented and `lastPostAt`
updated by the rate gate itself before validation ran. -/
theorem c4_counterexample :
    (postWall (fun _ => none) { envAllZero with now := 200000 } "ip"
        ⟨none, none, none⟩ (fun _ => some ⟨3, 10000000, 0⟩)).result =
      .missingMessage ∧
    (postWall (fun _ => none) { envAllZero with now := 200000 } "ip"
        ⟨none, none, none⟩
        (fun _ => some ⟨3, 10000000, 0⟩)).rateLimits "ip" =
      some ⟨4, 10000000, 200000⟩ :=
  ⟨by decide, by decide⟩

/-- C4 amended: the per-client record update is decided entirely by the
rate-limit gate, before any later gate runs — after any POST /wall
request the stored record for the client is exactly what
`checkRateLimit` produced (and other clients' records are untouched),
and whenever that gate allows, the stored record has `lastPost = now`
and a positive counter even if the request is subsequently rejected by
validation, proof of work, or storage. Consequently the cooldown
applies between consecutive rate-gate-allowed attempts, not only
between accepted writes. -/
theorem c4_amended_quota_consumed_at_gate (c : ChallengeStore)
    (e : PostEnv) (ip : String) (b : PostBody) (rl : RateLimits)
    (h0 : ∀ l, rl ip = some l → 0 ≤ l.count) :
    (postWall c e ip b rl).rateLimits ip =
      (checkRateLimit e.now (rl ip)).2 ∧
    (∀ k, k ≠ ip → (postWall c e ip b rl).rateLimits k = rl k) ∧
    ((checkRateLimit e.now (rl ip)).1 = .allowed →
      ∃ l', (checkRateLimit e.now (rl ip)).2 = some l' ∧
        1 ≤ l'.count ∧ l'.lastPost = e.now) := by
  refine ⟨?_, ?_, ?_⟩
  · rw [postWall_rateLimits_eq]
    simp
  · intro k hk
    rw [postWall_rateLimits_eq]
    simp [hk]
  · intro hA
    obtain ⟨l', hl', hge, _, hlast⟩ :=
      checkRateLimit_allowed_record e.now (rl ip) h0 hA
    exact ⟨l', hl', hge, hlast⟩

/-- Witness for C4 amended: a fresh client at t=0. -/
theorem c4_amended_quota_consumed_at_gate_witness :
    (∀ l, (fun _ => none : RateLimits) "ip" = some l → 0 ≤ l.count) ∧
    ((postWall (fun _ => none) envAllZero "ip" ⟨none, none, none⟩
        (fun _ => none)).rateLimits "ip" =
      (checkRateLimit envAllZero.now ((fun _ => none : RateLimits) "ip")).2 ∧
    (∀ k, k ≠ "ip" → (postWall (fun _ => none) envAllZero "ip"
        ⟨none, none, none⟩ (fun _ => none)).rateLimits k =
      (fun _ => none : RateLimits) k) ∧
    ((checkRateLimit envAllZero.now
        ((fun _ => none : RateLimits) "ip")).1 = .allowed →
      ∃ l', (checkRateLimit envAllZero.now
          ((fun _ => none : RateLimits) "ip")).2 = some l' ∧
        1 ≤ l'.count ∧ l'.lastPost = envAllZero.now)) :=
  ⟨(fun l hl => by cases hl),
    c4_amended_quota_consumed_at_gate (fun _ => none) envAllZero "ip"
      ⟨none, none, none⟩ (fun _ => none) (fun l hl => by cases hl)⟩

/-- Counterexample to C2: a message of two spaces is empty after
trimming, so the claim demands a 400 validation rejection — but the
handler validates the raw message (non-empty, raw length 2 ≤ 280),
accepts the request past every gate, and hands the store a message
whose `text` is the empty string: the trim happens only after
validation. -/
theorem c2_counterexample :
    jsTrim "  " = "" ∧
    (postWall (fun _ => none) envAllZero "ip"
        ⟨some "  ", some "n", some "s"⟩
        (fun _ => none)).insertAttempt.map Message.text = some "" ∧
    isGateRejection (postWall (fun _ => none) envAllZero "ip"
        ⟨some "  ", some "n", some "s"⟩ (fun _ => none)).result = false :=
  ⟨by decide, by decide, by decide⟩

/-- C2 amended: once the rate gate allows and nonce, solution, proof of
work and the store are in order, POST /wall rejects with a message
validation error (400) exactly when the raw, untrimmed message is
absent or empty or its raw UTF-16 length exceeds 280; the persisted
text is the message trimmed only at persistence time — hence possibly
empty — and always has at most 280 code points. -/
theorem c2_amended_raw_validation (c : ChallengeStore) (e : PostEnv)
    (ip : String) (b : PostBody) (rl : RateLimits)
    (hA : (checkRateLimit e.now (rl ip)).1 = .allowed)
    (hn : truthy b.nonce = true) (hs : truthy b.solution = true)
    (hpow : verifyProofOfWork e.hash (b.nonce.getD "")
      (b.solution.getD "") 5 = true)
    (hdb : e.dbConfigured = true) (hins : e.insertFails = false) :
    (((postWall c e ip b rl).result = .missingMessage ∨
      (postWall c e ip b rl).result = .messageTooLong) ↔
      (truthy b.message = false ∨
        280 < utf16Length (b.message.getD ""))) ∧
    (∀ m rem, (postWall c e ip b rl).result = .posted m rem →
      m.text = jsTrim (b.message.getD "") ∧
      codePointLength m.text ≤ 280) := by
  obtain ⟨rec, hc⟩ : ∃ rec, checkRateLimit e.now (rl ip) =
      (RateCheck.allowed, rec) := by
    rcases hx : checkRateLimit e.now (rl ip) with ⟨res, rec⟩
    rw [hx] at hA
    cases res with
    | allowed => exact ⟨rec, rfl⟩
    | deniedCooldown w => exact absurd hA (by simp)
    | deniedHourly w => exact absurd hA (by simp)
  cases hm : truthy b.message with
  | false =>
    have hres : (postWall c e ip b rl).result = .missingMessage := by
      simp [postWall, hc, hm]
    rw [hres]
    constructor
    · constructor
      · intro _; exact Or.inl rfl
      · intro _; exact Or.inl rfl
    · intro m rem h
      exact PostResult.noConfusion h
  | true =>
    by_cases hlen : 280 < utf16Length (b.message.getD "")
    · have hres : (postWall c e ip b rl).result = .messageTooLong := by
        simp [postWall, hc, hm, hn, hs, hlen]
      rw [hres]
      constructor
      · constructor
        · intro _; exact Or.inr hlen
        · intro _; exact Or.inr rfl
      · intro m rem h
        exact PostResult.noConfusion h
    · have hres : (postWall c e ip b rl).result =
          .posted
            { id := e.uuid
              text := jsTrim (b.message.getD "")
              x := 200 + e.randX * 2600
              y := 200 + e.randY * 2600
              color := COLORS.getD (Int.toNat (Rat.floor (e.randC * 10))) ""
              created_at := e.createdAt }
            (remainingPostsOf rec) := by
        simp [postWall, hc, hm, hn, hs, hlen, hpow, hdb, hins]
      rw [hres]
      constructor
      · constructor
        · rintro (h | h) <;> exact PostResult.noConfusion h
        · rintro (h | h)
          · exact Bool.noConfusion h
          · exact absurd h hlen
      · intro m rem h
        injection h with hmsg _
        rw [← hmsg]
        refine ⟨rfl, ?_⟩
        calc codePointLength (jsTrim (b.message.getD "")) ≤
            utf16Length (jsTrim (b.message.getD "")) :=
              codePointLength_le_utf16Length _
          _ ≤ utf16Length (b.message.getD "") := utf16Length_jsTrim_le _
          _ ≤ 280 := by omega

/-- Witness for C2 amended: a fresh client posting a padded two-code-
point message through a healthy store. -/
theorem c2_amended_raw_validation_witness :
    ((checkRateLimit envAllZero.now
        ((fun _ => none : RateLimits) "ip")).1 = .allowed) ∧
    truthy (some "n") = true ∧ truthy (some "s") = true ∧
    verifyProofOfWork envAllZero.hash "n" "s" 5 = true ∧
    envAllZero.dbConfigured = true ∧ envAllZero.insertFails = false ∧
    ((((postWall (fun _ => none) envAllZero "ip"
        ⟨some " hi ", some "n", some "s"⟩ (fun _ => none)).result =
          .missingMessage ∨
      (postWall (fun _ => none) envAllZero "ip"
        ⟨some " hi ", some "n", some "s"⟩ (fun _ => none)).result =
          .messageTooLong) ↔
      (truthy (some " hi ") = false ∨
        280 < utf16Length ((some " hi ").getD ""))) ∧
    (∀ m rem, (postWall (fun _ => none) envAllZero "ip"
        ⟨some " hi ", some "n", some "s"⟩ (fun _ => none)).result =
          .posted m rem →
      m.text = jsTrim ((some " hi ").getD "") ∧
      codePointLength m.text ≤ 280)) :=
  ⟨by decide, by decide, by decide, by decide, by decide, by decide,
    c2_amended_raw_validation (fun _ => none) envAllZero "ip"
      ⟨some " hi ", some "n", some "s"⟩ (fun _ => none)
      (by decide) (by decide) (by decide) (by decide) (by decide)
      (by decide)⟩

/-- Counterexample to C8: the query parameter `"0"` parses to 0 and is
passed through unclamped — the claimed lower clamp to 1 does not
exist in the handler. -/
theorem c8_counterexample :
    effectiveLimit (some "0") = some 0 ∧ ¬ (1 : Int) ≤ 0 :=
  ⟨by decide, by decide⟩

/-- C8 amended: the effective GET /wall limit is the parsed query
parameter capped above at 100, with `"50"` substituted when the
parameter is absent or empty; values of 100 or below — including 0 and
negatives — pass through unclamped, and there is no lower bound. -/
theorem c8_amended_limit_min_only :
    effectiveLimit none = some 50 ∧
    effectiveLimit (some "") = some 50 ∧
    (∀ p n, effectiveLimit p = some n → n ≤ 100) ∧
    (∀ s k, parseIntJs s = some k → k ≤ 100 →
      effectiveLimit (some s) = some k) ∧
    (∀ s k, parseIntJs s = some k → 100 < k →
      effectiveLimit (some s) = some 100) := by
  have hempty : ∀ (s : String) (k : Int), parseIntJs s = some k →
      ¬ s = "" := by
    intro s k hp he
    subst he
    rw [show parseIntJs "" = none from rfl] at hp
    exact Option.noConfusion hp
  refine ⟨by decide, by decide, ?_, ?_, ?_⟩
  · intro p n h
    unfold effectiveLimit at h
    rw [Option.map_eq_some'] at h
    obtain ⟨k, _, hk⟩ := h
    rw [← hk]
    exact min_le_right _ _
  · intro s k hp hk
    unfold effectiveLimit
    simp [hempty s k hp, hp, min_eq_left hk]
  · intro s k hp hk
    unfold effectiveLimit
    simp [hempty s k hp, hp, min_eq_right hk.le]

/-- Witness for C8 amended: the parameter `"7"` passes through, the
parameter `"250"` is capped at 100. -/
theorem c8_amended_limit_min_only_witness :
    (parseIntJs "7" = some 7 ∧ (7 : Int) ≤ 100 ∧
      effectiveLimit (some "7") = some 7) ∧
    (parseIntJs "250" = some 250 ∧ (100 : Int) < 250 ∧
      effectiveLimit (some "250") = some 100) :=
  ⟨⟨by decide, by decide,
      c8_amended_limit_min_only.2.2.2.1 "7" 7 (by decide) (by decide)⟩,
    ⟨by decide, by decide,
      c8_amended_limit_min_only.2.2.2.2 "250" 250 (by decide)
        (by decide)⟩⟩

end ForeverWall
